import Mathlib

/-!
Verification of the llm-infer-oni orchestration pipeline.

This file gives a shallow embedding of the core of the repository
(`src/core/ui_agent.py`, `src/base/middleware.py`,
`src/core/input_controller.py`, `src/core/llm_decision.py`,
`src/middlewares/state_tracking.py`, `src/middlewares/throttling.py`)
and proves properties of the embedded code.

Modelling conventions:
* Python/JSON values are modelled by the mutual inductive `JVal` / `JList` /
  `JDict`.  Python `None` is `JVal.null`; at places where the code
  distinguishes the `None` object from other values (middleware rejection)
  the embedding uses `Option JVal`, with `jToOpt` mediating.
* A Python dict is an association list with unique keys in insertion order;
  `dLookup` is key lookup, `pyGet d k` is `d.get(k)` (defaulting to `None`),
  `dGetD d k v` is `d.get(k, v)`.
* Exceptions raised by a middleware phase are modelled by the phase
  returning `none`; the `MiddlewareManager` embedding catches them exactly
  as `src/base/middleware.py` does.  Collaborator calls that the code
  wraps in try/except and converts to boolean failure are modelled by a
  boolean oracle `io`.
* Wall-clock timestamps carried in results/history entries are data that
  the orchestration control flow never branches on; they are omitted from
  the control-flow model.  The throttling delay computation, which does
  branch on time, is modelled separately over `ℚ`.
-/

mutual

inductive JVal where
  | null
  | bool (b : Bool)
  | int (n : Int)
  | str (s : String)
  | list (l : JList)
  | dict (d : JDict)

inductive JList where
  | nil
  | cons (hd : JVal) (tl : JList)

inductive JDict where
  | nil
  | cons (key : String) (val : JVal) (tl : JDict)

end

/-- Build a `JList` from a Lean list (convenience constructor). -/
def JList.ofList : List JVal → JList
  | [] => .nil
  | x :: xs => .cons x (JList.ofList xs)

/-- Build a `JDict` from a Lean list of key/value pairs. -/
def JDict.ofList : List (String × JVal) → JDict
  | [] => .nil
  | (k, v) :: xs => .cons k v (JDict.ofList xs)

/-- Length of a `JList`. -/
def JList.length : JList → Nat
  | .nil => 0
  | .cons _ tl => tl.length + 1

/-- Python dict key lookup (`k in d` / `d[k]`), first match wins. -/
def dLookup : JDict → String → Option JVal
  | .nil, _ => none
  | .cons k v tl, key => if k = key then some v else dLookup tl key

/-- Python `k in d` membership test. -/
def dContains (d : JDict) (k : String) : Bool :=
  match dLookup d k with
  | some _ => true
  | none => false

/-- Python `d.get(k)`: returns `None` when the key is absent. -/
def pyGet (d : JDict) (k : String) : JVal :=
  (dLookup d k).getD .null

/-- Python `d.get(k, dflt)`. -/
def dGetD (d : JDict) (k : String) (dflt : JVal) : JVal :=
  (dLookup d k).getD dflt

/-- Python truthiness of a value (`bool(v)`). -/
def jTruthy : JVal → Bool
  | .null => false
  | .bool b => b
  | .int n => n != 0
  | .str s => !s.isEmpty
  | .list l => (match l with | .nil => false | _ => true)
  | .dict d => (match d with | .nil => false | _ => true)

/-- Whether a value is the Python `None` object. -/
def isNullJ : JVal → Bool
  | .null => true
  | _ => false

/-- Crossing from a JSON value to the orchestrator's action variable, where
Python `None` becomes `Option.none` (used for middleware rejection checks). -/
def jToOpt : JVal → Option JVal
  | .null => none
  | v => some v

/-- The synthetic stop action `{"type": "stop", "reason": reason}` built by
`LLMDecision._parse_response` on decode failures. -/
def mkStop (reason : String) : JVal :=
  .dict (.cons "type" (.str "stop") (.cons "reason" (.str reason) .nil))

/-! ## InputController (src/core/input_controller.py) -/

/-- `InputController.validate` (src/core/input_controller.py lines 34-96),
the per-variant field checks on a decoded action. -/
def validate (a : JVal) : Bool :=
  match a with
  | .dict d =>
    -- action_type = action.get("type"); if not action_type: return False
    let ty := pyGet d "type"
    if !jTruthy ty then false
    else
      match ty with
      | .str s =>
        -- the elif chain over the action type
        if s = "move" then
          -- move requires the x and y keys
          dContains d "x" && dContains d "y"
        else if s = "click" then
          -- click requires x and y either both non-None or both None/absent
          if !isNullJ (pyGet d "x") && !isNullJ (pyGet d "y") then true
          else if isNullJ (pyGet d "x") && isNullJ (pyGet d "y") then true
          else false
        else if s = "type" then
          dContains d "text"
        else if s = "key" then
          dContains d "keys"
        else if s = "scroll" then
          if !dContains d "direction" && (!dContains d "x" || !dContains d "y") then false
          else true
        else if s = "stop" then true
        else false
      | _ => false
  | _ => false

/-- The per-variant validation rules as the (amended) specification states
them, written as a flat rule table to compare against `validate`. -/
def validateSpec (a : JVal) : Bool :=
  match a with
  | .dict d =>
    match dLookup d "type" with
    | some (.str s) =>
      if s = "move" then dContains d "x" && dContains d "y"
      else if s = "click" then
        (!isNullJ (pyGet d "x") && !isNullJ (pyGet d "y"))
          || (isNullJ (pyGet d "x") && isNullJ (pyGet d "y"))
      else if s = "type" then dContains d "text"
      else if s = "key" then dContains d "keys"
      else if s = "scroll" then
        dContains d "direction" || (dContains d "x" && dContains d "y")
      else if s = "stop" then true
      else false
    | _ => false
  | _ => false

/-- `InputController._press_key` (lines 221-252): a bare string key is
normalised to a one-element list, an empty key list fails, and the actual
key press is the oracle `io`. -/
def pressKeyD (io : JVal → Bool) (d : JDict) : Bool :=
  match dGetD d "keys" (.list .nil) with
  | .str _ => io (.dict d)
  | .list .nil => false
  | .list (.cons _ _) => io (.dict d)
  | _ => false

/-- `InputController._scroll` (lines 254-284): unknown directions fail,
the actual scroll is the oracle `io`. -/
def scrollD (io : JVal → Bool) (d : JDict) : Bool :=
  match dGetD d "direction" (.str "down") with
  | .str "down" => io (.dict d)
  | .str "up" => io (.dict d)
  | .str "left" => io (.dict d)
  | .str "right" => io (.dict d)
  | _ => false

mutual

/-- `InputController.execute` (lines 98-141): lists execute all elements and
conjoin the outcomes, single actions are validated first; `io` is the
boolean outcome of the OS-level dispatch helpers. -/
def executeAct (io : JVal → Bool) : JVal → Bool
  | .list l => executeList io l
  | a =>
    if !validate a then false
    else
      match a with
      | .dict d =>
        match dGetD d "type" (.str "") with
        | .str "move" => io a
        | .str "click" => io a
        | .str "type" => io a
        | .str "key" => pressKeyD io d
        | .str "scroll" => scrollD io d
        | .str "stop" => true
        | _ => false
      | _ => false

/-- List case of `InputController.execute`: `all` of the element outcomes. -/
def executeList (io : JVal → Bool) : JList → Bool
  | .nil => true
  | .cons x xs => executeAct io x && executeList io xs

end

/-! ## LLMDecision response parsing (src/core/llm_decision.py) -/

/-- Classification of the raw model response string as consumed by
`LLMDecision._parse_response` (lines 275-321).  The regex extraction of a
fenced JSON block and `json.loads` are library calls; they are abstracted
as this classification of the response: an error string starting with
"API", no fenced JSON block, a block that fails to decode, or a decoded
JSON value. -/
inductive LLMResponse where
  | apiError (msg : String)
  | noJsonBlock
  | badJson
  | decoded (v : JVal)

/-- The `match action:` statement of `_parse_response` (lines 299-310): a
dict without a type tag, an empty list, a list whose first element is not
a dict carrying a type tag, and a non-dict non-list value are all replaced
by a synthetic stop action. -/
def checkDecoded (v : JVal) : JVal :=
  match v with
  | .dict d => if dContains d "type" then v else mkStop "动作格式无效"
  | .list .nil => mkStop "动作格式无效"
  | .list (.cons x _) =>
    match x with
    | .dict d => if dContains d "type" then v else mkStop "动作格式无效"
    | _ => mkStop "动作格式无效"
  | _ => mkStop "动作格式无效"

/-- `LLMDecision._parse_response` (lines 275-321) over the classified
response. -/
def parseResponse : LLMResponse → JVal
  | .apiError msg => mkStop msg
  | .noJsonBlock => mkStop "响应中未找到有效的动作JSON"
  | .badJson => mkStop "无法解析回复为有效JSON"
  | .decoded v => checkDecoded v

/-- Whether a decoded value is a recognised action dict (a dict carrying a
`type` key), the shape accepted by the `match` of `_parse_response`. -/
def isActionDict : JVal → Bool
  | .dict d => dContains d "type"
  | _ => false

/-- Normalisation in `UIAgent.step` line 198:
`actions = action if isinstance(action, list) else [action]`. -/
def toActionList : JVal → JList
  | .list l => l
  | v => .cons v .nil

/-! ## Middleware contract and manager (src/base/middleware.py) -/

/-- A middleware instance: the six phase methods of the `Middleware` base
class.  `σ` is the middleware-chain private state (counters, timers),
threaded through every call; `C`, `S`, `A`, `R` are the context, state,
action and result types.  A phase returning `none` models the phase call
raising an exception. -/
structure MW (σ C S A R : Type) where
  bp : σ → C → Option (σ × C)
  ap : σ → S → C → Option (σ × S × C)
  bd : σ → S → C → Option (σ × S × C)
  ad : σ → Option A → S → C → Option (σ × Option A × S × C)
  be : σ → Option A → C → Option (σ × Option A × C)
  ae : σ → R → Option A → C → Option (σ × R × Option A × C)

/-- A middleware whose every phase is the identity pass-through (the
defaults of the `Middleware` base class). -/
def idMW {σ C S A R : Type} : MW σ C S A R where
  bp := fun s c => some (s, c)
  ap := fun s st c => some (s, st, c)
  bd := fun s st c => some (s, st, c)
  ad := fun s a st c => some (s, a, st, c)
  be := fun s a c => some (s, a, c)
  ae := fun s r a c => some (s, r, a, c)

/-- A middleware whose every phase raises. -/
def failMW {σ C S A R : Type} : MW σ C S A R where
  bp := fun _ _ => none
  ap := fun _ _ _ => none
  bd := fun _ _ _ => none
  ad := fun _ _ _ _ => none
  be := fun _ _ _ => none
  ae := fun _ _ _ _ => none

/-- `MiddlewareManager.process_before_perception` (lines 131-146): each
middleware is invoked in registration order; an exception is logged and
the chain continues with the previous values. -/
def mgrBP {σ C S A R : Type} : List (MW σ C S A R) → σ → C → σ × C
  | [], s, c => (s, c)
  | m :: ms, s, c =>
    match m.bp s c with
    | none => mgrBP ms s c
    | some (s', c') => mgrBP ms s' c'

/-- `MiddlewareManager.process_after_perception` (lines 148-164). -/
def mgrAP {σ C S A R : Type} : List (MW σ C S A R) → σ → S → C → σ × S × C
  | [], s, st, c => (s, st, c)
  | m :: ms, s, st, c =>
    match m.ap s st c with
    | none => mgrAP ms s st c
    | some (s', st', c') => mgrAP ms s' st' c'

/-- `MiddlewareManager.process_before_decision` (lines 166-182). -/
def mgrBD {σ C S A R : Type} : List (MW σ C S A R) → σ → S → C → σ × S × C
  | [], s, st, c => (s, st, c)
  | m :: ms, s, st, c =>
    match m.bd s st c with
    | none => mgrBD ms s st c
    | some (s', st', c') => mgrBD ms s' st' c'

/-- `MiddlewareManager.process_after_decision` (lines 184-205): as the
error-isolated chain runs, a middleware returning `None` as the action
breaks out of the loop and the phase returns the `None` action. -/
def mgrAD {σ C S A R : Type} : List (MW σ C S A R) → σ → Option A → S → C → σ × Option A × S × C
  | [], s, a, st, c => (s, a, st, c)
  | m :: ms, s, a, st, c =>
    match m.ad s a st c with
    | none => mgrAD ms s a st c
    | some (s', a', st', c') =>
      match a' with
      | none => (s', none, st', c')
      | some a'' => mgrAD ms s' (some a'') st' c'

/-- `MiddlewareManager.process_before_execution` (lines 207-227): same
break-on-`None` behaviour as `process_after_decision`. -/
def mgrBE {σ C S A R : Type} : List (MW σ C S A R) → σ → Option A → C → σ × Option A × C
  | [], s, a, c => (s, a, c)
  | m :: ms, s, a, c =>
    match m.be s a c with
    | none => mgrBE ms s a c
    | some (s', a', c') =>
      match a' with
      | none => (s', none, c')
      | some a'' => mgrBE ms s' (some a'') c'

/-- `MiddlewareManager.process_after_execution` (lines 229-246). -/
def mgrAE {σ C S A R : Type} : List (MW σ C S A R) → σ → R → Option A → C → σ × R × Option A × C
  | [], s, r, a, c => (s, r, a, c)
  | m :: ms, s, r, a, c =>
    match m.ae s r a c with
    | none => mgrAE ms s r a c
    | some (s', r', a', c') => mgrAE ms s' r' a' c'

/-! ## Orchestrator data model (src/core/ui_agent.py) -/

/-- A `Result` record (`{"success": ..., "timestamp": ..., "message"/"error": ...}`)
as built in `UIAgent.step` lines 221-225 and 255-259; the timestamp is
time data the control flow never reads and is omitted. -/
structure ExecResult where
  success : Bool
  message : Option JVal := none
  error : Option String := none

/-- The `_current_action` scratch record stored in the context by
`StateTrackingMiddleware.process_after_decision` (lines 108-133);
timestamp and start-time fields are omitted time data. -/
structure ActionRecord where
  action : JVal
  snapshot : Option (JVal × JVal × JVal)

/-- Stat block structure used per action type by
`StateTrackingMiddleware._update_stats`. -/
structure Stat3 where
  total : Nat := 0
  succ : Nat := 0
  fail : Nat := 0

/-- `StateTrackingMiddleware.stats` (lines 26-33); the action-type table is
keyed by the raw type value exactly as the Python dict is. -/
structure TrackStats where
  totalActions : Nat := 0
  successfulActions : Nat := 0
  failedActions : Nat := 0
  actionTypes : List (JVal × Stat3) := []

/-- One element of `context["history"]`.  `item` is the
`history_item` dict appended by `UIAgent.step` (lines 232-237, 266-271);
`record` is the `_current_action` record appended by
`StateTrackingMiddleware.process_after_execution` (line 164). -/
inductive HistEntry where
  | item (action : Option JVal) (result : ExecResult)
  | record (action : JVal) (snapshot : Option (JVal × JVal × JVal)) (result : ExecResult)

/-- The run context created by `UIAgent.setup` (lines 38-45) and mutated
through the run.  `scratch` models the `_current_action` key (`none` =
key absent), `stats` the `stats` key written by the tracking middleware;
`start_time` / `current_time` are omitted time data. -/
structure Ctx where
  task : String := ""
  iteration : Nat := 0
  promptName : Option String := none
  history : List HistEntry := []
  scratch : Option ActionRecord := none
  stats : Option TrackStats := none

/-! ## Orchestrator control flow (src/core/ui_agent.py) -/

/-- Whether a dict value is a stop action (`item.get("type") == "stop"`). -/
def isStopDict : JVal → Bool
  | .dict d =>
    match dLookup d "type" with
    | some (.str "stop") => true
    | _ => false
  | _ => false

/-- Whether any element of a `JList` is a stop dict. -/
def anyStopJL : JList → Bool
  | .nil => false
  | .cons x xs => isStopDict x || anyStopJL xs

/-- `should_stop` (src/core/ui_agent.py lines 301-318): a dict of type
`stop`, or a list containing a dict of type `stop`. -/
def shouldStop (a : JVal) : Bool :=
  match a with
  | .dict _ => isStopDict a
  | .list l => anyStopJL l
  | _ => false

/-- Outcome of one `UIAgent.step` call: the final middleware chain state,
the context, the list of actions handed to `Executor.execute` (in call
order), and the returned boolean. -/
structure StepOut (σ : Type) where
  sigma : σ
  ctx : Ctx
  execLog : List JVal
  stop : Bool

/-- The per-element loop of `UIAgent.step` (lines 203-287) over the
normalised action sequence.  `fr` is the running `final_result`.  An
element rejected (`None`) at `after_decision` or `before_execution` is
skipped; a stop dict takes the stop path (lines 217-239) and returns
`true` immediately; a non-dict value for which `should_stop` holds makes
`current_action.get("reason", ...)` raise, which the per-element
`except` clause turns into a `continue`; otherwise the element is
executed and recorded (lines 241-275). -/
def stepElems (mws : List (MW σ Ctx JVal JVal ExecResult)) (io : JVal → Bool) :
    σ → JVal → Ctx → JList → List JVal → Bool → StepOut σ
  | s, _, c, .nil, log, fr => ⟨s, c, log, fr⟩
  | s, st, c, .cons a rest, log, fr =>
    match mgrAD mws s (jToOpt a) st c with
    | (s1, none, st1, c1) => stepElems mws io s1 st1 c1 rest log fr
    | (s1, some v, st1, c1) =>
      if shouldStop v then
        match v with
        | .dict dv =>
          let res : ExecResult :=
            { success := true, message := some (dGetD dv "reason" (.str "任务完成")) }
          match mgrAE mws s1 res (some v) c1 with
          | (s2, res2, oa2, c2) =>
            ⟨s2, { c2 with history := c2.history ++ [.item oa2 res2] }, log, true⟩
        | _ => stepElems mws io s1 st1 c1 rest log fr
      else
        match mgrBE mws s1 (some v) c1 with
        | (s2, none, c2) => stepElems mws io s2 st1 c2 rest log fr
        | (s2, some v2, c2) =>
          let suc := executeAct io v2
          let res : ExecResult :=
            { success := suc, error := if suc then none else some "执行失败" }
          match mgrAE mws s2 res (some v2) c2 with
          | (s3, res3, oa3, c3) =>
            stepElems mws io s3 st1
              { c3 with history := c3.history ++ [.item oa3 res3] }
              rest (log ++ [v2]) (fr || suc)

/-- `UIAgent.step` (lines 169-292): phases 1-3, the decision, then the
per-element loop.  `perceive` is the `Perception.process` collaborator and
`decideF` the `Brain.decide` collaborator. -/
def step (mws : List (MW σ Ctx JVal JVal ExecResult)) (io : JVal → Bool)
    (perceive : Ctx → JVal) (decideF : JVal → Ctx → JVal)
    (s : σ) (c : Ctx) : StepOut σ :=
  match mgrBP mws s c with
  | (s1, c1) =>
    let st0 := perceive c1
    match mgrAP mws s1 st0 c1 with
    | (s2, st2, c2) =>
      match mgrBD mws s2 st2 c2 with
      | (s3, st3, c3) =>
        let decision := decideF st3 c3
        stepElems mws io s3 st3 c3 (toActionList decision) [] false

/-- Summary returned by `UIAgent.run` (lines 134-139); `elapsed_time` is
omitted time data, `execLog` is the accumulated executor call log. -/
structure RunOut (σ : Type) where
  iterations : Nat
  ctx : Ctx
  execLog : List JVal
  sigma : σ

/-- The `while self.running` loop of `UIAgent.run` (lines 97-121): bump the
iteration counter, run `step`, break on a `true` return or on reaching
`max_iterations`.  `fuel` is `max_iterations - iteration`, so the loop
matches the Python loop for any `max_iterations` when started with
`fuel = max_iterations - 1` and `it = 0`. -/
def runLoop (mws : List (MW σ Ctx JVal JVal ExecResult)) (io : JVal → Bool)
    (perceive : Ctx → JVal) (decideF : JVal → Ctx → JVal) :
    Nat → Nat → σ → Ctx → List JVal → RunOut σ
  | fuel, it, s, c, log =>
    let it1 := it + 1
    let out := step mws io perceive decideF s { c with iteration := it1 }
    let log1 := log ++ out.execLog
    if out.stop then ⟨it1, out.ctx, log1, out.sigma⟩
    else
      match fuel with
      | 0 => ⟨it1, out.ctx, log1, out.sigma⟩
      | fuel' + 1 => runLoop mws io perceive decideF fuel' it1 out.sigma out.ctx log1

/-- Configuration slice of `UIAgent` used by `run` and
`_auto_select_prompt`: `max_iterations`, `auto_prompt`,
`default_prompt_name`, `task_prompt_mapping`, and the set of prompt names
the `PromptManager` collaborator has loaded (governing `set_prompt`
success). -/
structure AgentCfg where
  maxIterations : Nat := 100
  autoPrompt : Bool := true
  defaultPromptName : String := "default"
  taskPromptMapping : List (String × List String) := []
  prompts : List String := ["default"]

/-- Python `str.lower()` for one character (ASCII case fold). -/
def lowerChar (c : Char) : Char :=
  if 'A' ≤ c && c ≤ 'Z' then Char.ofNat (c.toNat + 32) else c

/-- Python `str.lower()` (ASCII case fold; the configured keywords and
tasks under test are ASCII or already-caseless CJK text). -/
def pyLower (s : String) : String := ⟨s.toList.map lowerChar⟩

/-- Python substring test `needle in hay`. -/
def strContainsSub (hay needle : String) : Bool :=
  hay.toList.tails.any (fun t => needle.toList.isPrefixOf t)

/-- `LLMDecision.set_prompt` (src/core/llm_decision.py lines 103-120)
backed by `PromptManager.set_current_prompt`: succeeds iff the prompt
name is loaded, and then records the name in the context. -/
def trySetPrompt (prompts : List String) (name : String) (c : Ctx) : Bool × Ctx :=
  if prompts.contains name then (true, { c with promptName := some name }) else (false, c)

/-- Inner keyword loop of `UIAgent._auto_select_prompt` (lines 153-159):
the first keyword contained in the lowered task for which `set_prompt`
succeeds wins. -/
def autoSelectKeywords (prompts : List String) (name : String) (taskLower : String)
    (c : Ctx) : List String → Option Ctx
  | [] => none
  | kw :: rest =>
    if strContainsSub taskLower (pyLower kw) then
      match trySetPrompt prompts name c with
      | (true, c') => some c'
      | (false, _) => autoSelectKeywords prompts name taskLower c rest
    else autoSelectKeywords prompts name taskLower c rest

/-- Outer category loop of `UIAgent._auto_select_prompt`: categories are
scanned in mapping order. -/
def autoSelectMapping (prompts : List String) (taskLower : String) (c : Ctx) :
    List (String × List String) → Option Ctx
  | [] => none
  | (name, kws) :: rest =>
    match autoSelectKeywords prompts name taskLower c kws with
    | some c' => some c'
    | none => autoSelectMapping prompts taskLower c rest

/-- `UIAgent._auto_select_prompt` (lines 141-167): keyword match over the
configured mapping, falling back to the default prompt. -/
def autoSelectPrompt (cfg : AgentCfg) (task : String) (c : Ctx) : Bool × Ctx :=
  match autoSelectMapping cfg.prompts (pyLower task) c cfg.taskPromptMapping with
  | some c' => (true, c')
  | none => trySetPrompt cfg.prompts cfg.defaultPromptName c

/-- The context as `UIAgent.setup` (lines 38-45) plus `run` line 80 build
it: fresh history, iteration 0, the default prompt name, and the task. -/
def setupCtx (cfg : AgentCfg) (task : String) : Ctx :=
  { task := task, iteration := 0, promptName := some cfg.defaultPromptName, history := [] }

/-- `UIAgent.run` (lines 68-139): set up the context, run the auto prompt
selection guard (`auto_prompt` enabled and `"prompt_name" not in
self.context`), then the main loop. -/
def runAgent (cfg : AgentCfg) (mws : List (MW σ Ctx JVal JVal ExecResult))
    (sigma0 : σ) (io : JVal → Bool) (perceive : Ctx → JVal)
    (decideF : JVal → Ctx → JVal) (task : String) : RunOut σ :=
  let c0 := setupCtx cfg task
  let c1 := if cfg.autoPrompt && c0.promptName.isNone
            then (autoSelectPrompt cfg task c0).2 else c0
  runLoop mws io perceive decideF (cfg.maxIterations - 1) 0 sigma0 c1 []

/-! ## StateTrackingMiddleware (src/middlewares/state_tracking.py) -/

mutual

/-- Python `==` on JSON values (used for dict-key identity in the stats
table). -/
def jeq : JVal → JVal → Bool
  | .null, .null => true
  | .bool a, .bool b => a == b
  | .int a, .int b => a == b
  | .str a, .str b => a == b
  | .list a, .list b => jeqL a b
  | .dict a, .dict b => jeqD a b
  | _, _ => false

/-- Element-wise equality of `JList`s. -/
def jeqL : JList → JList → Bool
  | .nil, .nil => true
  | .cons a as, .cons b bs => jeq a b && jeqL as bs
  | _, _ => false

/-- Pair-wise equality of `JDict`s. -/
def jeqD : JDict → JDict → Bool
  | .nil, .nil => true
  | .cons ka va as, .cons kb vb bs => ka == kb && jeq va vb && jeqD as bs
  | _, _ => false

end

/-- Lookup in the stats action-type table. -/
def statLookup : List (JVal × Stat3) → JVal → Option Stat3
  | [], _ => none
  | (k, v) :: rest, key => if jeq k key then some v else statLookup rest key

/-- Python dict assignment on the stats table: replace in place, or append
a new key. -/
def statSet : List (JVal × Stat3) → JVal → Stat3 → List (JVal × Stat3)
  | [], key, v => [(key, v)]
  | (k, v0) :: rest, key, v =>
    if jeq k key then (k, v) :: rest else (k, v0) :: statSet rest key v

/-- `StateTrackingMiddleware._update_stats` (lines 37-65) for one action
value.  Returns `none` when Python would raise (`action.get` on a truthy
non-dict value); note the `runtime` field is omitted time data. -/
def updateStats (trackStats : Bool) (st : TrackStats) (action : JVal)
    (res : ExecResult) : Option TrackStats :=
  if !trackStats || !jTruthy action then some st
  else
    match action with
    | .dict d =>
      let ty := dGetD d "type" (.str "unknown")
      let base := (statLookup st.actionTypes ty).getD {}
      let bumped : Stat3 :=
        { total := base.total + 1
          succ := if res.success then base.succ + 1 else base.succ
          fail := if res.success then base.fail else base.fail + 1 }
      some { totalActions := st.totalActions + 1
             successfulActions :=
               if res.success then st.successfulActions + 1 else st.successfulActions
             failedActions :=
               if res.success then st.failedActions else st.failedActions + 1
             actionTypes := statSet st.actionTypes ty bumped }
    | _ => none

/-- Stats update over the elements of an action list (lines 171-175): only
dict elements are counted. -/
def updateStatsL (trackStats : Bool) (st : TrackStats) (res : ExecResult) :
    JList → TrackStats
  | .nil => st
  | .cons x xs =>
    match x with
    | .dict _ =>
      updateStatsL trackStats ((updateStats trackStats st x res).getD st) res xs
    | _ => updateStatsL trackStats st res xs

/-- Whether a `JList` has a dict element (`isinstance(act, dict)` scan of
lines 106-117). -/
def anyDictJL : JList → Bool
  | .nil => false
  | .cons x xs =>
    match x with
    | .dict _ => true
    | _ => anyDictJL xs

/-- The `state_snapshot` computed at lines 111-115 / 124-128: `none` when
the state is falsy; the outer `Option` is `none` when Python would raise
(`state.get` on a truthy non-dict state). -/
def stSnapshotM (state : JVal) : Option (Option (JVal × JVal × JVal)) :=
  if !jTruthy state then some none
  else
    match state with
    | .dict sd =>
      some (some (dGetD sd "screen_width" (.int 0),
                  dGetD sd "screen_height" (.int 0),
                  dGetD sd "cursor_position" (.list (.cons (.int 0) (.cons (.int 0) .nil)))))
    | _ => none

/-- Python `lst[-k:]` (note `lst[-0:]` is the whole list). -/
def pyTakeLast (k : Nat) (l : List α) : List α :=
  if k = 0 then l else l.drop (l.length - k)

/-- The append-and-trim performed on `context["history"]` by
`StateTrackingMiddleware.process_after_execution` (lines 162-168). -/
def stAppend (maxH : Nat) (h : List HistEntry) (e : HistEntry) : List HistEntry :=
  let h2 := h ++ [e]
  if maxH < h2.length then pyTakeLast maxH h2 else h2

/-- `StateTrackingMiddleware` (state_tracking.py) as a middleware instance
over chain state `TrackStats`.  `before_perception` (lines 67-87) copies
the stats into the context (`history` always exists in a run context, and
`current_time` is omitted time data); `after_decision` (lines 89-135)
stores the `_current_action` scratch record; `after_execution`
(lines 137-182) appends the record to the history, trims it to
`max_history`, updates the stats and clears the scratch key. -/
def stateTrackingMW (maxH : Nat) (trackStats : Bool) : MW TrackStats Ctx JVal JVal ExecResult where
  bp := fun s c =>
    some (s, if trackStats then { c with stats := some s } else c)
  ap := fun s st c => some (s, st, c)
  bd := fun s st c => some (s, st, c)
  ad := fun s oa st c =>
    match oa with
    | none => some (s, none, st, c)
    | some a =>
      match a with
      | .list l =>
        if anyDictJL l then
          match stSnapshotM st with
          | none => none
          | some snap => some (s, some a, st, { c with scratch := some ⟨a, snap⟩ })
        else some (s, some a, st, c)
      | .dict _ =>
        match stSnapshotM st with
        | none => none
        | some snap => some (s, some a, st, { c with scratch := some ⟨a, snap⟩ })
      | _ => some (s, some a, st, c)
  be := fun s oa c => some (s, oa, c)
  ae := fun s r oa c =>
    match oa with
    | none => some (s, r, none, c)
    | some a =>
      match c.scratch with
      | none => some (s, r, some a, c)
      | some rec0 =>
        let hist2 := stAppend maxH c.history (.record rec0.action rec0.snapshot r)
        match a with
        | .list l =>
          some (updateStatsL trackStats s r l, r, some a,
                { c with history := hist2, scratch := none })
        | _ =>
          match updateStats trackStats s a r with
          | none => none
          | some s2 => some (s2, r, some a, { c with history := hist2, scratch := none })

/-! ## ThrottlingMiddleware (src/middlewares/throttling.py) -/

/-- Rational-number lookup in the per-type delay configuration. -/
def delayLookup : List (String × ℚ) → String → ℚ → ℚ
  | [], _, dflt => dflt
  | (k, v) :: rest, key, dflt => if k = key then v else delayLookup rest key dflt

def dLookup_sizeOf : ∀ (d : JDict) (k : String) (v : JVal),
    dLookup d k = some v → sizeOf v < sizeOf d
  | .nil, _, _, h => by simp [dLookup] at h
  | .cons k' v' tl, k, v, h => by
    simp only [dLookup] at h
    split at h
    · cases h; simp; omega
    · have := dLookup_sizeOf tl k v h
      simp
      omega

mutual

/-- `ThrottlingMiddleware._get_action_delay` (lines 37-53): the per-type
delay, with the recursive maximum for composite actions.  A `"composite"`
action whose `actions` value is not a list makes the Python `for` raise
(an exception the manager then isolates); that corner is folded into the
`composite` table lookup here. -/
def getActionDelay (delays : List (String × ℚ)) (dflt : ℚ) (a : JVal) : ℚ :=
  match a with
  | .dict d =>
    match dLookup d "type" with
    | some (.str "composite") =>
      match h2 : dLookup d "actions" with
      | some (.list l) =>
        max (getDelayList delays dflt l) (delayLookup delays "composite" dflt)
      | _ => delayLookup delays "composite" dflt
    | some (.str s) => delayLookup delays s dflt
    | some _ => dflt
    | none => delayLookup delays "" dflt
  | _ => 0
termination_by sizeOf a
decreasing_by
  have h3 := dLookup_sizeOf d "actions" _ h2
  simp only [JVal.list.sizeOf_spec, JVal.dict.sizeOf_spec] at h3 ⊢
  omega

/-- Maximum `_get_action_delay` over the dict elements of a list,
starting from `0`. -/
def getDelayList (delays : List (String × ℚ)) (dflt : ℚ) (l : JList) : ℚ :=
  match l with
  | .nil => 0
  | .cons x xs =>
    match x with
    | .dict d2 => max (getActionDelay delays dflt (.dict d2)) (getDelayList delays dflt xs)
    | _ => getDelayList delays dflt xs
termination_by sizeOf l
decreasing_by
  all_goals simp only [JList.cons.sizeOf_spec, JVal.dict.sizeOf_spec]
  all_goals omega

end

/-- `ThrottlingMiddleware._get_max_delay` (lines 55-65). -/
def getMaxDelay (delays : List (String × ℚ)) (dflt : ℚ) : JVal → ℚ
  | .list l => getDelayList delays dflt l
  | .dict d => getActionDelay delays dflt (.dict d)
  | _ => 0

/-- The wait computed by `ThrottlingMiddleware.process_before_execution`
(lines 80-87): `wait_time = max(0, delay - (current_time - last_action_time))`;
the middleware then sleeps for exactly this long. -/
def throttleWaitTime (delays : List (String × ℚ)) (dflt : ℚ)
    (lastActionTime now : ℚ) (a : JVal) : ℚ :=
  max 0 (getMaxDelay delays dflt a - (now - lastActionTime))

/-- `ThrottlingMiddleware` in the (untimed) control-flow model, with chain
state the `last_action_time` field: `process_before_execution` only
sleeps (wall time, no state change, never rejects), and
`process_after_execution` (line 109) unconditionally overwrites
`last_action_time` with the current clock reading `tNew`. -/
def throttlingCtl (tNew : ℚ) : MW ℚ Ctx JVal JVal ExecResult where
  bp := fun s c => some (s, c)
  ap := fun s st c => some (s, st, c)
  bd := fun s st c => some (s, st, c)
  ad := fun s a st c => some (s, a, st, c)
  be := fun s a c => some (s, a, c)
  ae := fun _ r a c => some (tNew, r, a, c)

/-- A middleware that rejects every action at `after_decision`. -/
def rejectAD {σ C S A R : Type} : MW σ C S A R :=
  { idMW with ad := fun s _ st c => some (s, none, st, c) }

/-- A middleware that rejects every action at `before_execution`. -/
def rejectBE {σ C S A R : Type} : MW σ C S A R :=
  { idMW with be := fun s _ c => some (s, none, c) }

/-! ## Concrete scenario inputs -/

/-- The action `{"type": "click", "x": 1, "y": 1}` of Scenario A. -/
def clickAction : JVal :=
  .dict (.ofList [("type", .str "click"), ("x", .int 1), ("y", .int 1)])

/-- The action `{"type": "move", "x": 0, "y": 0}` of Scenario B. -/
def moveAction : JVal :=
  .dict (.ofList [("type", .str "move"), ("x", .int 0), ("y", .int 0)])

/-- The action `{"type": "stop", "reason": "done"}` of Scenario B. -/
def stopDone : JVal :=
  .dict (.ofList [("type", .str "stop"), ("reason", .str "done")])

/-- A perception state with no error. -/
def dummyState : JVal :=
  .dict (.ofList [("screen_width", .int 100), ("screen_height", .int 100)])

/-- Scenario A: no middlewares, the Brain always returns `clickAction`,
the Executor always succeeds, `max_iterations = 3`. -/
def scenarioA : RunOut Unit :=
  runAgent { maxIterations := 3 } [] () (fun _ => true) (fun _ => dummyState)
    (fun _ _ => clickAction) "task"

/-- Scenario B: the Brain returns `[move, stop]` on every iteration,
the Executor always succeeds. -/
def scenarioB : RunOut Unit :=
  runAgent { maxIterations := 5 } [] () (fun _ => true) (fun _ => dummyState)
    (fun _ _ => .list (.ofList [moveAction, stopDone])) "task"

/-- One step with the state-tracking middleware configured with
`max_history = 1`: the Brain returns one click, the Executor succeeds. -/
def scenarioTrack : StepOut TrackStats :=
  step [stateTrackingMW 1 true] (fun _ => true) (fun _ => dummyState)
    (fun _ _ => clickAction) {} (setupCtx {} "t")

/-- Configuration for the auto-prompt scenario: auto selection enabled, a
category `browser` keyed by the keyword `open`, and both prompts loaded. -/
def cfgAuto : AgentCfg :=
  { maxIterations := 1, autoPrompt := true, defaultPromptName := "default",
    taskPromptMapping := [("browser", ["open"])], prompts := ["default", "browser"] }

/-- A run of the auto-prompt scenario on the task "open chrome", with a
Brain that immediately stops. -/
def scenarioAuto : RunOut Unit :=
  runAgent cfgAuto [] () (fun _ => true) (fun _ => dummyState)
    (fun _ _ => stopDone) "open chrome"

/-! ## Helper lemmas on the middleware manager -/

theorem mgrBP_append {σ C S A R : Type} (ms₁ ms₂ : List (MW σ C S A R)) (s : σ) (c : C) :
    mgrBP (ms₁ ++ ms₂) s c = mgrBP ms₂ (mgrBP ms₁ s c).1 (mgrBP ms₁ s c).2 := by
  induction ms₁ generalizing s c with
  | nil => rfl
  | cons m ms ih =>
    simp only [List.cons_append, mgrBP]
    rcases m.bp s c with _ | ⟨s', c'⟩
    · exact ih s c
    · exact ih s' c'

theorem mgrAP_append {σ C S A R : Type} (ms₁ ms₂ : List (MW σ C S A R)) (s : σ) (st : S) (c : C) :
    mgrAP (ms₁ ++ ms₂) s st c =
      mgrAP ms₂ (mgrAP ms₁ s st c).1 (mgrAP ms₁ s st c).2.1 (mgrAP ms₁ s st c).2.2 := by
  induction ms₁ generalizing s st c with
  | nil => rfl
  | cons m ms ih =>
    simp only [List.cons_append, mgrAP]
    rcases m.ap s st c with _ | ⟨s', st', c'⟩
    · exact ih s st c
    · exact ih s' st' c'

theorem mgrBD_append {σ C S A R : Type} (ms₁ ms₂ : List (MW σ C S A R)) (s : σ) (st : S) (c : C) :
    mgrBD (ms₁ ++ ms₂) s st c =
      mgrBD ms₂ (mgrBD ms₁ s st c).1 (mgrBD ms₁ s st c).2.1 (mgrBD ms₁ s st c).2.2 := by
  induction ms₁ generalizing s st c with
  | nil => rfl
  | cons m ms ih =>
    simp only [List.cons_append, mgrBD]
    rcases m.bd s st c with _ | ⟨s', st', c'⟩
    · exact ih s st c
    · exact ih s' st' c'

theorem mgrAE_append {σ C S A R : Type} (ms₁ ms₂ : List (MW σ C S A R)) (s : σ) (r : R)
    (a : Option A) (c : C) :
    mgrAE (ms₁ ++ ms₂) s r a c =
      mgrAE ms₂ (mgrAE ms₁ s r a c).1 (mgrAE ms₁ s r a c).2.1
        (mgrAE ms₁ s r a c).2.2.1 (mgrAE ms₁ s r a c).2.2.2 := by
  induction ms₁ generalizing s r a c with
  | nil => rfl
  | cons m ms ih =>
    simp only [List.cons_append, mgrAE]
    rcases m.ae s r a c with _ | ⟨s', r', a', c'⟩
    · exact ih s r a c
    · exact ih s' r' a' c'

theorem mgrAD_append {σ C S A R : Type} (ms₁ ms₂ : List (MW σ C S A R)) (s : σ) (a : Option A)
    (st : S) (c : C) (h : (mgrAD ms₁ s a st c).2.1 ≠ none) :
    mgrAD (ms₁ ++ ms₂) s a st c =
      mgrAD ms₂ (mgrAD ms₁ s a st c).1 (mgrAD ms₁ s a st c).2.1
        (mgrAD ms₁ s a st c).2.2.1 (mgrAD ms₁ s a st c).2.2.2 := by
  induction ms₁ generalizing s a st c with
  | nil => rfl
  | cons m ms ih =>
    simp only [List.cons_append, mgrAD] at h ⊢
    rcases hm : m.ad s a st c with _ | ⟨s', a', st', c'⟩
    · rw [hm] at h; exact ih s a st c h
    · rw [hm] at h
      rcases a' with _ | a''
      · simp at h
      · exact ih s' (some a'') st' c' h

theorem mgrBE_append {σ C S A R : Type} (ms₁ ms₂ : List (MW σ C S A R)) (s : σ) (a : Option A)
    (c : C) (h : (mgrBE ms₁ s a c).2.1 ≠ none) :
    mgrBE (ms₁ ++ ms₂) s a c =
      mgrBE ms₂ (mgrBE ms₁ s a c).1 (mgrBE ms₁ s a c).2.1 (mgrBE ms₁ s a c).2.2 := by
  induction ms₁ generalizing s a c with
  | nil => rfl
  | cons m ms ih =>
    simp only [List.cons_append, mgrBE] at h ⊢
    rcases hm : m.be s a c with _ | ⟨s', a', c'⟩
    · rw [hm] at h; exact ih s a c h
    · rw [hm] at h
      rcases a' with _ | a''
      · simp at h
      · exact ih s' (some a'') c' h

theorem updateStats_dict_isSome (ts : Bool) (s : TrackStats) (d : JDict) (r : ExecResult) :
    (updateStats ts s (.dict d) r).isSome := by
  unfold updateStats
  split
  · simp
  · simp

/-! ## Claim theorems -/

/-- C1: the claim says `step()` returns true only via the stop-action path,
and that Scenario A (Brain always returns the valid click, Executor always
succeeds, `max_iterations = 3`) runs 3 iterations with a 3-entry history.
The code instead returns `final_result`, which `step()` sets to true as
soon as any normal action executes successfully (ui_agent.py lines
273-275, 287), so the run stops after the first successful iteration:
Scenario A yields `iterations = 1` and a 1-entry history, and a step whose
only action is a successfully executed click (no stop action anywhere)
returns true. -/
theorem C1_run_stops_after_first_success :
    scenarioA.iterations = 1
  ∧ scenarioA.ctx.history = [.item (some clickAction) { success := true }]
  ∧ scenarioA.execLog = [clickAction]
  ∧ shouldStop clickAction = false
  ∧ (step [] (fun _ => true) (fun _ => dummyState) (fun _ _ => clickAction)
       () (setupCtx { maxIterations := 3 } "task")).stop = true :=
  ⟨rfl, rfl, rfl, rfl, rfl⟩

/-- C2 counterexample: with the state-tracking middleware configured with
`max_history = 1`, a single executed click leaves the context history at
length 2: the middleware's append is trimmed to `max_history`
(state_tracking.py lines 162-168), but the orchestrator then appends its
own `history_item` (ui_agent.py lines 266-271) with no trim, so "after
every append `len(history) <= max_history`" fails. -/
theorem C2_history_bound_counterexample :
    1 < scenarioTrack.ctx.history.length ∧ scenarioTrack.ctx.history.length = 2 := by decide

/-- C2 amended: after every append performed by the state-tracking
middleware's own append-and-trim (with `max_history ≥ 1`), the history is
exactly the most recent entries of the appended sequence in their
original order, and its length is at most `max_history`; the
orchestrator's separate appends are not covered by the invariant. -/
theorem C2_history_bound_amended (maxH : Nat) (h : List HistEntry) (e : HistEntry)
    (hpos : 1 ≤ maxH) :
    stAppend maxH h e = (h ++ [e]).drop (h.length + 1 - maxH)
    ∧ (stAppend maxH h e).length = min (h.length + 1) maxH := by
  have hlen : (h ++ [e]).length = h.length + 1 := by simp
  simp only [stAppend, pyTakeLast, hlen]
  by_cases hlt : maxH < h.length + 1
  · have hk : ¬ maxH = 0 := by omega
    rw [if_pos hlt, if_neg hk]
    refine ⟨rfl, ?_⟩
    rw [List.length_drop, hlen]
    omega
  · rw [if_neg hlt]
    have h0 : h.length + 1 - maxH = 0 := by omega
    rw [h0, List.drop_zero]
    refine ⟨rfl, ?_⟩
    rw [hlen]
    omega

/-- C2 witness: the amended history bound evaluated at `max_history = 1`
with a one-entry history. -/
theorem C2_history_bound_witness :
    stAppend 1 [HistEntry.item none { success := true }] (.item none { success := false })
      = [.item none { success := false }]
    ∧ (stAppend 1 [HistEntry.item none { success := true }]
        (.item none { success := false })).length = 1 := by
  have h := C2_history_bound_amended 1 [HistEntry.item none { success := true }]
    (.item none { success := false }) (by norm_num)
  exact ⟨h.1.trans rfl, h.2.trans rfl⟩

/-- C3: error isolation in the `MiddlewareManager`, for all six phases: if
a middleware raises during a phase call (modelled by its phase returning
`none`), the chain continues from the values produced by the prefix before
it — the failing middleware is a no-op for that call and the middlewares
after it still run, so the phase output is that of the remaining chain
applied to the last successful middleware's output.  For the two phases
with rejection semantics the prefix is assumed not to have rejected the
action (otherwise the failing middleware is never reached). -/
theorem C3_error_isolation {σ C S A R : Type} (ms₁ ms₂ : List (MW σ C S A R))
    (f : MW σ C S A R) :
    (∀ (s : σ) (c : C) s₁ c₁, mgrBP ms₁ s c = (s₁, c₁) → f.bp s₁ c₁ = none →
      mgrBP (ms₁ ++ f :: ms₂) s c = mgrBP ms₂ s₁ c₁)
  ∧ (∀ (s : σ) (st : S) (c : C) s₁ st₁ c₁, mgrAP ms₁ s st c = (s₁, st₁, c₁) →
      f.ap s₁ st₁ c₁ = none → mgrAP (ms₁ ++ f :: ms₂) s st c = mgrAP ms₂ s₁ st₁ c₁)
  ∧ (∀ (s : σ) (st : S) (c : C) s₁ st₁ c₁, mgrBD ms₁ s st c = (s₁, st₁, c₁) →
      f.bd s₁ st₁ c₁ = none → mgrBD (ms₁ ++ f :: ms₂) s st c = mgrBD ms₂ s₁ st₁ c₁)
  ∧ (∀ (s : σ) (a : Option A) (st : S) (c : C) s₁ a₁ st₁ c₁,
      mgrAD ms₁ s a st c = (s₁, some a₁, st₁, c₁) → f.ad s₁ (some a₁) st₁ c₁ = none →
      mgrAD (ms₁ ++ f :: ms₂) s a st c = mgrAD ms₂ s₁ (some a₁) st₁ c₁)
  ∧ (∀ (s : σ) (a : Option A) (c : C) s₁ a₁ c₁,
      mgrBE ms₁ s a c = (s₁, some a₁, c₁) → f.be s₁ (some a₁) c₁ = none →
      mgrBE (ms₁ ++ f :: ms₂) s a c = mgrBE ms₂ s₁ (some a₁) c₁)
  ∧ (∀ (s : σ) (r : R) (a : Option A) (c : C) s₁ r₁ a₁ c₁,
      mgrAE ms₁ s r a c = (s₁, r₁, a₁, c₁) → f.ae s₁ r₁ a₁ c₁ = none →
      mgrAE (ms₁ ++ f :: ms₂) s r a c = mgrAE ms₂ s₁ r₁ a₁ c₁) := by
  refine ⟨?_, ?_, ?_, ?_, ?_, ?_⟩
  · intro s c s₁ c₁ h1 hf
    rw [mgrBP_append, h1]
    simp only [mgrBP, hf]
  · intro s st c s₁ st₁ c₁ h1 hf
    rw [mgrAP_append, h1]
    simp only [mgrAP, hf]
  · intro s st c s₁ st₁ c₁ h1 hf
    rw [mgrBD_append, h1]
    simp only [mgrBD, hf]
  · intro s a st c s₁ a₁ st₁ c₁ h1 hf
    rw [mgrAD_append ms₁ (f :: ms₂) s a st c (by rw [h1]; simp), h1]
    simp only [mgrAD, hf]
  · intro s a c s₁ a₁ c₁ h1 hf
    rw [mgrBE_append ms₁ (f :: ms₂) s a c (by rw [h1]; simp), h1]
    simp only [mgrBE, hf]
  · intro s r a c s₁ r₁ a₁ c₁ h1 hf
    rw [mgrAE_append, h1]
    simp only [mgrAE, hf]

/-- C3 witness: error isolation evaluated on the chain
`[idMW, failMW, idMW]` over `Nat` values, for every phase. -/
theorem C3_error_isolation_witness :
    @mgrBP Nat Nat Nat Nat Nat ([idMW] ++ failMW :: [idMW]) 0 1
      = @mgrBP Nat Nat Nat Nat Nat [idMW] 0 1
  ∧ @mgrAP Nat Nat Nat Nat Nat ([idMW] ++ failMW :: [idMW]) 0 2 1
      = @mgrAP Nat Nat Nat Nat Nat [idMW] 0 2 1
  ∧ @mgrBD Nat Nat Nat Nat Nat ([idMW] ++ failMW :: [idMW]) 0 2 1
      = @mgrBD Nat Nat Nat Nat Nat [idMW] 0 2 1
  ∧ @mgrAD Nat Nat Nat Nat Nat ([idMW] ++ failMW :: [idMW]) 0 (some 5) 2 1
      = @mgrAD Nat Nat Nat Nat Nat [idMW] 0 (some 5) 2 1
  ∧ @mgrBE Nat Nat Nat Nat Nat ([idMW] ++ failMW :: [idMW]) 0 (some 5) 1
      = @mgrBE Nat Nat Nat Nat Nat [idMW] 0 (some 5) 1
  ∧ @mgrAE Nat Nat Nat Nat Nat ([idMW] ++ failMW :: [idMW]) 0 3 (some 5) 1
      = @mgrAE Nat Nat Nat Nat Nat [idMW] 0 3 (some 5) 1 := by
  have h := C3_error_isolation (σ := Nat) (C := Nat) (S := Nat) (A := Nat) (R := Nat)
    [idMW] [idMW] failMW
  exact ⟨h.1 0 1 0 1 rfl rfl, h.2.1 0 2 1 0 2 1 rfl rfl, h.2.2.1 0 2 1 0 2 1 rfl rfl,
    h.2.2.2.1 0 (some 5) 2 1 0 5 2 1 rfl rfl, h.2.2.2.2.1 0 (some 5) 1 0 5 1 rfl rfl,
    h.2.2.2.2.2 0 3 (some 5) 1 0 3 (some 5) 1 rfl rfl⟩

/-- C4: when the per-element loop of `step()` meets an element that (after
the `after_decision` phase) is a stop dict, it takes the stop path and
returns true immediately: the result is the same whatever follows the
stop element in the sequence (no later element is executed or recorded),
and the returned flag is true.  Concretely, Scenario B (decision
`[move, stop]`, Executor succeeding) ends after one iteration with a
two-entry history: the executed move and the recorded stop carrying the
reason "done", with only the move ever reaching the Executor. -/
theorem C4_stop_short_circuit :
    (∀ (σ : Type) (mws : List (MW σ Ctx JVal JVal ExecResult)) (io : JVal → Bool)
        (s : σ) (st : JVal) (c : Ctx) (a : JVal) (rest : JList) (log : List JVal) (fr : Bool)
        (s₁ : σ) (dv : JDict) (st₁ : JVal) (c₁ : Ctx),
      mgrAD mws s (jToOpt a) st c = (s₁, some (.dict dv), st₁, c₁) →
      dLookup dv "type" = some (.str "stop") →
      stepElems mws io s st c (.cons a rest) log fr = stepElems mws io s st c (.cons a .nil) log fr
      ∧ (stepElems mws io s st c (.cons a rest) log fr).stop = true)
  ∧ scenarioB.iterations = 1
  ∧ scenarioB.ctx.history = [.item (some moveAction) { success := true },
      .item (some stopDone) { success := true, message := some (.str "done") }]
  ∧ scenarioB.execLog = [moveAction] := by
  refine ⟨?_, rfl, rfl, rfl⟩
  intro σ mws io s st c a rest log fr s₁ dv st₁ c₁ h1 hty
  have hss : shouldStop (.dict dv) = true := by
    simp only [shouldStop, isStopDict, hty]
  constructor
  · simp only [stepElems, h1, hss]
    simp
  · simp only [stepElems, h1, hss]
    rcases mgrAE mws s₁
      { success := true, message := some (dGetD dv "reason" (.str "任务完成")) }
      (some (.dict dv)) c₁ with ⟨s2, r2, oa2, c2⟩
    simp

/-- C4 witness: the stop short-circuit evaluated with no middlewares on the
sequence `[stop, move]`: the trailing move is ignored and the step
returns true. -/
theorem C4_stop_short_circuit_witness :
    stepElems ([] : List (MW Unit Ctx JVal JVal ExecResult)) (fun _ => true)
      () dummyState (setupCtx {} "t") (.cons stopDone (.cons moveAction .nil)) [] false
      = stepElems [] (fun _ => true) () dummyState (setupCtx {} "t") (.cons stopDone .nil) [] false
    ∧ (stepElems ([] : List (MW Unit Ctx JVal JVal ExecResult)) (fun _ => true)
        () dummyState (setupCtx {} "t") (.cons stopDone (.cons moveAction .nil)) [] false).stop
      = true :=
  C4_stop_short_circuit.1 Unit [] (fun _ => true) () dummyState (setupCtx {} "t")
    stopDone (.cons moveAction .nil) [] false ()
    (.cons "type" (.str "stop") (.cons "reason" (.str "done") .nil))
    dummyState (setupCtx {} "t") rfl rfl

/-- C5: in the `after_decision` and `before_execution` phases, a middleware
returning a null action makes the manager skip the remaining middlewares
of that phase call and return the null action normally (first two
conjuncts, with the prefix of the chain not itself rejecting); and in the
per-element loop of `step()`, an element whose action comes back null from
either phase is skipped entirely — the executor is not called, no history
entry is appended, and processing continues with the next element of the
sequence from exactly the values the phase produced (last two
conjuncts). -/
theorem C5_null_rejection_skip {σ : Type} :
    (∀ (ms₁ ms₂ : List (MW σ Ctx JVal JVal ExecResult)) (m : MW σ Ctx JVal JVal ExecResult)
        s a st c s₁ a₁ st₁ c₁ s₂ st₂ c₂,
      mgrAD ms₁ s a st c = (s₁, some a₁, st₁, c₁) →
      m.ad s₁ (some a₁) st₁ c₁ = some (s₂, none, st₂, c₂) →
      mgrAD (ms₁ ++ m :: ms₂) s a st c = (s₂, none, st₂, c₂))
  ∧ (∀ (ms₁ ms₂ : List (MW σ Ctx JVal JVal ExecResult)) (m : MW σ Ctx JVal JVal ExecResult)
        s a c s₁ a₁ c₁ s₂ c₂,
      mgrBE ms₁ s a c = (s₁, some a₁, c₁) →
      m.be s₁ (some a₁) c₁ = some (s₂, none, c₂) →
      mgrBE (ms₁ ++ m :: ms₂) s a c = (s₂, none, c₂))
  ∧ (∀ (mws : List (MW σ Ctx JVal JVal ExecResult)) (io : JVal → Bool)
        s st c a rest log fr s₁ st₁ c₁,
      mgrAD mws s (jToOpt a) st c = (s₁, none, st₁, c₁) →
      stepElems mws io s st c (.cons a rest) log fr = stepElems mws io s₁ st₁ c₁ rest log fr)
  ∧ (∀ (mws : List (MW σ Ctx JVal JVal ExecResult)) (io : JVal → Bool)
        s st c a rest log fr s₁ v st₁ c₁ s₂ c₂,
      mgrAD mws s (jToOpt a) st c = (s₁, some v, st₁, c₁) →
      shouldStop v = false →
      mgrBE mws s₁ (some v) c₁ = (s₂, none, c₂) →
      stepElems mws io s st c (.cons a rest) log fr = stepElems mws io s₂ st₁ c₂ rest log fr) := by
  refine ⟨?_, ?_, ?_, ?_⟩
  · intro ms₁ ms₂ m s a st c s₁ a₁ st₁ c₁ s₂ st₂ c₂ h1 hm
    rw [mgrAD_append ms₁ (m :: ms₂) s a st c (by rw [h1]; simp), h1]
    simp only [mgrAD, hm]
  · intro ms₁ ms₂ m s a c s₁ a₁ c₁ s₂ c₂ h1 hm
    rw [mgrBE_append ms₁ (m :: ms₂) s a c (by rw [h1]; simp), h1]
    simp only [mgrBE, hm]
  · intro mws io s st c a rest log fr s₁ st₁ c₁ h1
    simp only [stepElems, h1]
  · intro mws io s st c a rest log fr s₁ v st₁ c₁ s₂ c₂ h1 hstop h2
    simp only [stepElems, h1, hstop, h2]
    simp

/-- C5 witness: a rejecting middleware at `after_decision` short-circuits
the rest of its phase, and a rejected click is skipped while the next
element (a move) is still processed and executed. -/
theorem C5_null_rejection_skip_witness :
    @mgrAD Unit Ctx JVal JVal ExecResult ([] ++ rejectAD :: [idMW]) () (some clickAction)
        dummyState (setupCtx {} "t")
      = ((), none, dummyState, setupCtx {} "t")
    ∧ stepElems [rejectAD] (fun _ => true) () dummyState (setupCtx {} "t")
        (.cons clickAction (.cons moveAction .nil)) [] false
      = stepElems [rejectAD] (fun _ => true) () dummyState (setupCtx {} "t")
          (.cons moveAction .nil) [] false
    ∧ stepElems [rejectBE] (fun _ => true) () dummyState (setupCtx {} "t")
        (.cons clickAction (.cons moveAction .nil)) [] false
      = stepElems [rejectBE] (fun _ => true) () dummyState (setupCtx {} "t")
          (.cons moveAction .nil) [] false :=
  ⟨C5_null_rejection_skip.1 [] [idMW] rejectAD () (some clickAction) dummyState
      (setupCtx {} "t") () clickAction dummyState (setupCtx {} "t") () dummyState
      (setupCtx {} "t") rfl rfl,
   C5_null_rejection_skip.2.2.1 [rejectAD] (fun _ => true) () dummyState (setupCtx {} "t")
      clickAction (.cons moveAction .nil) [] false () dummyState (setupCtx {} "t") rfl,
   C5_null_rejection_skip.2.2.2 [rejectBE] (fun _ => true) () dummyState (setupCtx {} "t")
      clickAction (.cons moveAction .nil) [] false () clickAction dummyState
      (setupCtx {} "t") () (setupCtx {} "t") rfl rfl rfl⟩

/-- C6: normalisation of a Brain decision never yields an empty action
sequence: every parsed response normalises to a non-empty list; a decoded
single dict carrying a type tag is returned and wrapped into a length-1
list; a decoded non-empty list whose first element is a recognised action
dict is used as-is; and every malformed decision — an API error string, no
JSON block, undecodable JSON, an empty list, a dict without a type tag, a
list whose first element is not a recognised action dict, or a value that
is neither dict nor list — is replaced by a single synthetic stop action
carrying a diagnostic reason. -/
theorem C6_normalize_nonempty :
    (∀ r, 1 ≤ (toActionList (parseResponse r)).length)
  ∧ (∀ msg, parseResponse (.apiError msg) = mkStop msg)
  ∧ (parseResponse .noJsonBlock = mkStop "响应中未找到有效的动作JSON")
  ∧ (parseResponse .badJson = mkStop "无法解析回复为有效JSON")
  ∧ (∀ d, parseResponse (.decoded (.dict d))
        = if dContains d "type" then .dict d else mkStop "动作格式无效")
  ∧ (parseResponse (.decoded (.list .nil)) = mkStop "动作格式无效")
  ∧ (∀ x xs, parseResponse (.decoded (.list (.cons x xs)))
        = if isActionDict x then .list (.cons x xs) else mkStop "动作格式无效")
  ∧ (parseResponse (.decoded .null) = mkStop "动作格式无效")
  ∧ (∀ b, parseResponse (.decoded (.bool b)) = mkStop "动作格式无效")
  ∧ (∀ n, parseResponse (.decoded (.int n)) = mkStop "动作格式无效")
  ∧ (∀ s, parseResponse (.decoded (.str s)) = mkStop "动作格式无效")
  ∧ (∀ d, toActionList (.dict d) = .cons (.dict d) .nil)
  ∧ (∀ l, toActionList (.list l) = l) := by
  refine ⟨?_, fun _ => rfl, rfl, rfl, ?_, rfl, ?_, rfl, fun _ => rfl, fun _ => rfl,
    fun _ => rfl, fun _ => rfl, fun _ => rfl⟩
  · intro r
    cases r with
    | apiError msg => simp [parseResponse, mkStop, toActionList, JList.length]
    | noJsonBlock => simp [parseResponse, mkStop, toActionList, JList.length]
    | badJson => simp [parseResponse, mkStop, toActionList, JList.length]
    | decoded v =>
      cases v with
      | dict d =>
        by_cases hd : dContains d "type" <;>
          simp [parseResponse, checkDecoded, hd, mkStop, toActionList, JList.length]
      | list l =>
        cases l with
        | nil => simp [parseResponse, checkDecoded, mkStop, toActionList, JList.length]
        | cons x xs =>
          cases x with
          | dict d =>
            by_cases hd : dContains d "type" <;>
              simp [parseResponse, checkDecoded, hd, mkStop, toActionList, JList.length]
          | null => simp [parseResponse, checkDecoded, mkStop, toActionList, JList.length]
          | bool b => simp [parseResponse, checkDecoded, mkStop, toActionList, JList.length]
          | int n => simp [parseResponse, checkDecoded, mkStop, toActionList, JList.length]
          | str s => simp [parseResponse, checkDecoded, mkStop, toActionList, JList.length]
          | list l2 => simp [parseResponse, checkDecoded, mkStop, toActionList, JList.length]
      | null => simp [parseResponse, checkDecoded, mkStop, toActionList, JList.length]
      | bool b => simp [parseResponse, checkDecoded, mkStop, toActionList, JList.length]
      | int n => simp [parseResponse, checkDecoded, mkStop, toActionList, JList.length]
      | str s => simp [parseResponse, checkDecoded, mkStop, toActionList, JList.length]
  · intro d
    by_cases hd : dContains d "type" <;> simp [parseResponse, checkDecoded, hd]
  · intro x xs
    cases x with
    | dict d =>
      by_cases hd : dContains d "type" <;>
        simp [parseResponse, checkDecoded, isActionDict, hd]
    | null => simp [parseResponse, checkDecoded, isActionDict]
    | bool b => simp [parseResponse, checkDecoded, isActionDict]
    | int n => simp [parseResponse, checkDecoded, isActionDict]
    | str s => simp [parseResponse, checkDecoded, isActionDict]
    | list l2 => simp [parseResponse, checkDecoded, isActionDict]

/-- C7 counterexample: the claim says `validate` requires `keys`, after
normalising a bare string to a one-element list, to have length at least
1; but `validate` only checks that the `keys` key is present
(input_controller.py lines 76-80), so `{"type": "key", "keys": []}`
validates as true.  The length check only happens at execution time
inside `_press_key` (lines 238-248), where the same action fails. -/
theorem C7_validate_counterexample :
    validate (.dict (.ofList [("type", .str "key"), ("keys", .list .nil)])) = true
    ∧ executeAct (fun _ => true)
        (.dict (.ofList [("type", .str "key"), ("keys", .list .nil)])) = false :=
  ⟨rfl, rfl⟩

/-- C7 amended: `validate` implements presence-based per-variant rules —
move requires the `x` and `y` keys present (their values are not checked
to be numeric); click requires `x` and `y` both non-null or both
null/absent; type requires the `text` key (empty string allowed); key
requires only the `keys` key present (the non-emptiness of the key list
is checked at execution time, not by `validate`); scroll requires a
`direction` key or both `x` and `y`; stop is always valid; a missing,
falsy or unknown type tag is invalid.  The claim's validation table
holds. -/
theorem C7_validate_amended :
    (∀ a, validate a = validateSpec a)
  ∧ validate (.dict (.ofList [("type", .str "move"), ("x", .int 10)])) = false
  ∧ validate (.dict (.ofList [("type", .str "click")])) = true
  ∧ validate (.dict (.ofList [("type", .str "scroll")])) = false
  ∧ validate (.dict (.ofList [("type", .str "key"), ("keys", .str "a")])) = true
  ∧ validate (.dict (.ofList [("type", .str "scroll"), ("direction", .str "up")])) = true := by
  refine ⟨?_, rfl, rfl, rfl, rfl, rfl⟩
  intro a
  cases a with
  | dict d =>
    simp only [validate, validateSpec, pyGet]
    rcases hty : dLookup d "type" with _ | v
    · simp [jTruthy]
    · simp only [Option.getD_some]
      cases v with
      | null => simp [jTruthy]
      | bool b => cases b <;> simp [jTruthy]
      | int n =>
        by_cases hn : n = 0
        · subst hn; simp [jTruthy]
        · simp [jTruthy, hn]
      | str s =>
        by_cases h0 : s.isEmpty
        · have hs : s = "" := (String.isEmpty_iff s).mp h0
          subst hs
          simp [jTruthy]
        · simp [jTruthy, h0]
      | list l => cases l <;> simp [jTruthy]
      | dict d2 => cases d2 <;> simp [jTruthy]
  | null => rfl
  | bool b => rfl
  | int n => rfl
  | str s => rfl
  | list l => rfl

/-- C8: the claim says `run(task)` auto-selects a prompt by keyword match
when auto selection is enabled.  But `setup()` always writes
`prompt_name` into the fresh context (ui_agent.py line 44), so the guard
`"prompt_name" not in self.context` at line 84 is false on every run and
`_auto_select_prompt` is never called: with auto selection enabled, a
matching category (`browser` keyed by "open", both prompts loaded) and
the task "open chrome", the run still ends with the default prompt name,
even though `_auto_select_prompt` itself would have selected and recorded
`browser`. -/
theorem C8_auto_prompt_dead :
    (∀ (cfg : AgentCfg) (task : String),
      (cfg.autoPrompt && (setupCtx cfg task).promptName.isNone) = false)
  ∧ scenarioAuto.ctx.promptName = some "default"
  ∧ cfgAuto.autoPrompt = true
  ∧ (autoSelectPrompt cfgAuto "open chrome" (setupCtx cfgAuto "open chrome")).1 = true
  ∧ (autoSelectPrompt cfgAuto "open chrome" (setupCtx cfgAuto "open chrome")).2.promptName
      = some "browser" := by
  refine ⟨?_, rfl, rfl, by decide, by decide⟩
  intro cfg task
  simp [setupCtx]

/-- C9: throttling.  First conjunct: for any action, if the previous
`Executor.execute` call happened no later than the recorded
`last_action_time` (it did: the timestamp is taken after the execution),
and the next execution starts no earlier than the end of the sleep of
`process_before_execution` (`now + max(0, d - (now - last))`), then the
gap between the two executions is at least the configured delay `d` for
that action.  Second and third conjuncts: an element rejected (null) at
`after_decision` or at `before_execution` leaves the throttle chain state
— the `last_action_time` — unchanged and never reaches the executor,
because the `after_execution` phase, the only place the timestamp is
written, is not run for a rejected element. -/
theorem C9_throttling :
    (∀ (delays : List (String × ℚ)) (dflt : ℚ) (a : JVal) (d last now prevExec execT : ℚ),
      getMaxDelay delays dflt a = d →
      prevExec ≤ last →
      now + throttleWaitTime delays dflt last now a ≤ execT →
      prevExec + d ≤ execT)
  ∧ (∀ (tNew : ℚ) (io : JVal → Bool) (s : ℚ) (st : JVal) (c : Ctx) (a : JVal)
        (log : List JVal) (fr : Bool),
      stepElems [throttlingCtl tNew, rejectAD] io s st c (.cons a .nil) log fr
        = ⟨s, c, log, fr⟩)
  ∧ (∀ (tNew : ℚ) (io : JVal → Bool) (s : ℚ) (st : JVal) (c : Ctx) (a : JVal)
        (log : List JVal) (fr : Bool),
      shouldStop a = false →
      stepElems [throttlingCtl tNew, rejectBE] io s st c (.cons a .nil) log fr
        = ⟨s, c, log, fr⟩) := by
  refine ⟨?_, ?_, ?_⟩
  · intro delays dflt a d last now prevExec execT hd hle hexec
    unfold throttleWaitTime at hexec
    rw [hd] at hexec
    have := le_max_right (0 : ℚ) (d - (now - last))
    linarith
  · intro tNew io s st c a log fr
    cases a <;> simp [stepElems, mgrAD, throttlingCtl, rejectAD, idMW, jToOpt]
  · intro tNew io s st c a log fr hstop
    cases a <;>
      simp [stepElems, mgrAD, mgrBE, throttlingCtl, rejectBE, idMW, jToOpt, hstop]

/-- C9 witness: with the click delay configured as 1 and the last action
recorded at time 5, an execution starting at the sleep-adjusted time 6
keeps a gap of at least 1 from a previous execution at time 4; and a
rejected click leaves the throttle state 3 untouched with an empty
executor log. -/
theorem C9_throttling_witness :
    (4 : ℚ) + 1 ≤ 6
    ∧ stepElems [throttlingCtl 9, rejectAD] (fun _ => true) 3 dummyState (setupCtx {} "t")
        (.cons clickAction .nil) [] false
      = ⟨3, setupCtx {} "t", [], false⟩
    ∧ stepElems [throttlingCtl 9, rejectBE] (fun _ => true) 3 dummyState (setupCtx {} "t")
        (.cons clickAction .nil) [] false
      = ⟨3, setupCtx {} "t", [], false⟩ :=
  ⟨C9_throttling.1 [("click", 1)] 2 clickAction 1 5 6 4 6
      (by simp [getMaxDelay, getActionDelay, clickAction, JDict.ofList, dLookup, delayLookup])
      (by norm_num)
      (by simp [throttleWaitTime, getMaxDelay, getActionDelay, clickAction, JDict.ofList,
            dLookup, delayLookup]
          norm_num),
   C9_throttling.2.1 9 (fun _ => true) 3 dummyState (setupCtx {} "t") clickAction [] false,
   C9_throttling.2.2 9 (fun _ => true) 3 dummyState (setupCtx {} "t") clickAction [] false rfl⟩

/-- C10: with the state-tracking middleware registered, an action that
reaches the `after_execution` phase — an executed dict action or a stop
dict — adds exactly two entries to the history in the same step: first
the middleware's `_current_action` record, whose append is followed by
the trim to `max_history` (`stAppend`), then the orchestrator's
`history_item`, appended afterwards with no trim. -/
theorem C10_double_append (maxH : Nat) (ts : Bool) (io : JVal → Bool) (s : TrackStats)
    (st : JVal) (c : Ctx) (da : JDict) (log : List JVal) (fr : Bool)
    (snap : Option (JVal × JVal × JVal))
    (hsnap : stSnapshotM st = some snap) :
    (isStopDict (.dict da) = false →
      (stepElems [stateTrackingMW maxH ts] io s st c (.cons (.dict da) .nil) log fr).ctx.history
        = stAppend maxH c.history
            (.record (.dict da) snap
              { success := executeAct io (.dict da),
                error := if executeAct io (.dict da) then none else some "执行失败" })
          ++ [.item (some (.dict da))
              { success := executeAct io (.dict da),
                error := if executeAct io (.dict da) then none else some "执行失败" }])
  ∧ (dLookup da "type" = some (.str "stop") →
      (stepElems [stateTrackingMW maxH ts] io s st c (.cons (.dict da) .nil) log fr).ctx.history
        = stAppend maxH c.history
            (.record (.dict da) snap
              { success := true, message := some (dGetD da "reason" (.str "任务完成")) })
          ++ [.item (some (.dict da))
              { success := true, message := some (dGetD da "reason" (.str "任务完成")) }]) := by
  constructor
  · intro hns
    have hss : shouldStop (.dict da) = false := by simpa [shouldStop] using hns
    simp only [stepElems, mgrAD, mgrBE, mgrAE, stateTrackingMW, jToOpt, hsnap, hss]
    rcases hupd : updateStats ts s (.dict da)
        { success := executeAct io (.dict da), message := none,
          error := if executeAct io (.dict da) then none else some "执行失败" }
      with _ | s2
    · have := updateStats_dict_isSome ts s da
        { success := executeAct io (.dict da), message := none,
          error := if executeAct io (.dict da) then none else some "执行失败" }
      rw [hupd] at this
      simp at this
    · simp [hupd]
  · intro hty
    have hss : shouldStop (.dict da) = true := by simp [shouldStop, isStopDict, hty]
    simp only [stepElems, mgrAD, mgrBE, mgrAE, stateTrackingMW, jToOpt, hsnap, hss]
    rcases hupd : updateStats ts s (.dict da)
        { success := true, message := some (dGetD da "reason" (.str "任务完成")), error := none }
      with _ | s2
    · have := updateStats_dict_isSome ts s da
        { success := true, message := some (dGetD da "reason" (.str "任务完成")), error := none }
      rw [hupd] at this
      simp at this
    · simp [hupd]

/-- C10 witness: the double append evaluated for an executed click with
`max_history = 2` on an empty history: the step leaves exactly the
middleware record followed by the orchestrator item. -/
theorem C10_double_append_witness :
    (stepElems [stateTrackingMW 2 true] (fun _ => true) {} dummyState (setupCtx {} "t")
        (.cons clickAction .nil) [] false).ctx.history
      = stAppend 2 []
          (.record clickAction
            (some (.int 100, .int 100, .list (.cons (.int 0) (.cons (.int 0) .nil))))
            { success := true, error := none })
        ++ [.item (some clickAction) { success := true, error := none }] := by
  have h := (C10_double_append 2 true (fun _ => true) {} dummyState (setupCtx {} "t")
    (.cons "type" (.str "click") (.cons "x" (.int 1) (.cons "y" (.int 1) .nil)))
    [] false (some (.int 100, .int 100, .list (.cons (.int 0) (.cons (.int 0) .nil))))
    rfl).1 rfl
  exact h.trans rfl
